import Mathlib

/-!
# krakend-logrus: a shallow embedding of `log.go`

The adapter reads a configuration block from the host's extra-configuration map
(`ConfigGetter`), builds a wrapped logrus logger (`NewLogger`, `setFormatter`,
`setOutput`) and forwards gated log calls to it (`Logger.Debug` ... `Logger.Critical`).

Modelling conventions.

* A Go string is a sequence of bytes (`GoString`), not necessarily valid UTF-8; the
  strings of a JSON document are Unicode text (`String`).
* `encoding/json` is modelled on JSON documents rather than on their bytes: `Marshal`
  yields the document the bytes denote, reading each Go string as UTF-8 and putting the
  replacement character U+FFFD for every byte that is not part of a valid encoding, and
  `Unmarshal` decodes such a document into a struct, writing text as UTF-8, recording
  type mismatches and carrying on, as the library does.
* Writing is modelled as a trace: every `Write` on a sink appends the pair of the sink and
  the rendered record to the output. Sinks do not fail.
* The library type `logrus.JSONFormatter` is declared outside the repository and is kept
  abstract: the development is parametric in the type `J` and in its JSON codec.
-/

set_option autoImplicit false

namespace KrakendLogrus

/-! ## Go strings and UTF-8 (`unicode/utf8`) -/

/-- A Go string: a sequence of bytes, each a number below 256 (a larger number is no
byte of any valid encoding and is read as an invalid byte). -/
abbrev GoString := List Nat

/-- The function `utf8.EncodeRune`: the UTF-8 encoding of one code point. -/
def EncodeRune (c : Char) : GoString :=
  let r := c.toNat
  if r < 0x80 then [r]
  else if r < 0x800 then [0xC0 + r / 64, 0x80 + r % 64]
  else if r < 0x10000 then [0xE0 + r / 4096, 0x80 + r / 64 % 64, 0x80 + r % 64]
  else [0xF0 + r / 262144, 0x80 + r / 4096 % 64, 0x80 + r / 64 % 64, 0x80 + r % 64]

/-- The Go string holding a text: its UTF-8 encoding. String constants of the source
are written with it. -/
def utf8 (s : String) : GoString :=
  s.toList.flatMap EncodeRune

/-- The range the second byte of an encoding must lie in, given the first byte (the
table `acceptRanges` of `unicode/utf8`). -/
def acceptRange (b0 : Nat) : Nat × Nat :=
  if b0 = 0xE0 then (0xA0, 0xBF)
  else if b0 = 0xED then (0x80, 0x9F)
  else if b0 = 0xF0 then (0x90, 0xBF)
  else if b0 = 0xF4 then (0x80, 0x8F)
  else (0x80, 0xBF)

/-- The function `utf8.DecodeRuneInString`: the code point at the start of a string and
the number of bytes of its encoding; `(0xFFFD, 1)` when the bytes at the start are not a
valid encoding, `(0xFFFD, 0)` on the empty string. -/
def DecodeRune : GoString → Nat × Nat
  | [] => (0xFFFD, 0)
  | b0 :: rest =>
    if b0 < 0x80 then (b0, 1)
    else if 0xC2 ≤ b0 ∧ b0 ≤ 0xDF then
      match rest with
      | b1 :: _ =>
        if 0x80 ≤ b1 ∧ b1 ≤ 0xBF then (b0 % 32 * 64 + b1 % 64, 2) else (0xFFFD, 1)
      | _ => (0xFFFD, 1)
    else if 0xE0 ≤ b0 ∧ b0 ≤ 0xEF then
      match rest with
      | b1 :: b2 :: _ =>
        if (acceptRange b0).1 ≤ b1 ∧ b1 ≤ (acceptRange b0).2 ∧ 0x80 ≤ b2 ∧ b2 ≤ 0xBF then
          (b0 % 16 * 4096 + b1 % 64 * 64 + b2 % 64, 3)
        else (0xFFFD, 1)
      | _ => (0xFFFD, 1)
    else if 0xF0 ≤ b0 ∧ b0 ≤ 0xF4 then
      match rest with
      | b1 :: b2 :: b3 :: _ =>
        if (acceptRange b0).1 ≤ b1 ∧ b1 ≤ (acceptRange b0).2 ∧ 0x80 ≤ b2 ∧ b2 ≤ 0xBF ∧
            0x80 ≤ b3 ∧ b3 ≤ 0xBF then
          (b0 % 8 * 262144 + b1 % 64 * 4096 + b2 % 64 * 64 + b3 % 64, 4)
        else (0xFFFD, 1)
      | _ => (0xFFFD, 1)
    else (0xFFFD, 1)

/-- The code points of a Go string as `json.Marshal` reads it, rune by rune: a byte that
does not start a valid encoding yields U+FFFD and is stepped over alone. The first
argument bounds the number of runes; the length of the string is enough. -/
def toRunes : Nat → GoString → List Char
  | 0, _ => []
  | _ + 1, [] => []
  | n + 1, b :: bs =>
    let r := DecodeRune (b :: bs)
    Char.ofNat r.1 :: toRunes n ((b :: bs).drop r.2)

/-- The JSON text `json.Marshal` writes for a Go string. -/
def toText (s : GoString) : String :=
  String.mk (toRunes s.length s)

/-- Whether the first runes of a string, up to the given number, are validly encoded
and use the string up. -/
def validPrefix : Nat → GoString → Bool
  | 0, s => s.isEmpty
  | _ + 1, [] => true
  | n + 1, b :: bs =>
    let r := DecodeRune (b :: bs)
    if r.1 = 0xFFFD ∧ r.2 = 1 then false else validPrefix n ((b :: bs).drop r.2)

/-- The function `utf8.ValidString`: the string consists of valid UTF-8 encodings. -/
def ValidString (s : GoString) : Bool :=
  validPrefix s.length s

/-- A Go string after encoding to JSON and decoding back: every byte that is not part
of a valid encoding has become the three bytes of U+FFFD. -/
def toValidUTF8 (s : GoString) : GoString :=
  utf8 (toText s)

/-! ## JSON documents (`encoding/json`) -/

/-- A JSON document. -/
inductive JSON where
  | null
  | bool (b : Bool)
  | number (n : Int)
  | string (s : String)
  | array (xs : List JSON)
  | object (kvs : List (String × JSON))

/-- Simple case folding of one rune, as `encoding/json` applies it to match object keys
against struct field names made of ASCII letters: ASCII upper case folds to lower case,
the Kelvin sign folds to `k` and the long s folds to `s`. -/
def foldRune (c : Char) : Char :=
  if c.toNat = 0x212A then 'k'
  else if c.toNat = 0x17F then 's'
  else if 65 ≤ c.toNat ∧ c.toNat ≤ 90 then Char.ofNat (c.toNat + 32)
  else c

/-- Case-insensitive comparison of an object key with a field name. -/
def equalFold (name key : String) : Bool :=
  name.toList.map foldRune == key.toList.map foldRune

/-- The struct field an object key selects: the field whose name is the key exactly,
otherwise the first field whose name matches the key ignoring case. -/
def fieldIndex (names : List String) (key : String) : Option Nat :=
  match names.indexOf? key with
  | some i => some i
  | none => names.findIdx? (fun name => equalFold name key)

/-- Decoding a JSON value into a Go `bool`. The second component tells whether an
`UnmarshalTypeError` was recorded; `null` leaves the value as it is. -/
def decodeBool (j : JSON) (cur : Bool) : Bool × Bool :=
  match j with
  | .null => (cur, false)
  | .bool b => (b, false)
  | _ => (cur, true)

/-- Decoding a JSON value into a Go `string`: the text is written as UTF-8. -/
def decodeString (j : JSON) (cur : GoString) : GoString × Bool :=
  match j with
  | .null => (cur, false)
  | .string s => (utf8 s, false)
  | _ => (cur, true)

/-- Decoding the members of an object one after the other into a struct; a type mismatch
is recorded and decoding carries on with the next member. -/
def decodeMembers {α : Type} (setField : α → String → JSON → α × Bool) :
    List (String × JSON) → α → α × Bool
  | [], a => (a, false)
  | (k, v) :: rest, a =>
    let r := setField a k v
    let r2 := decodeMembers setField rest r.1
    (r2.1, r.2 || r2.2)

/-- Decoding a JSON value into a struct: `null` is a no-op, an object is decoded member
by member, anything else is a type mismatch. -/
def decodeStruct {α : Type} (members : List (String × JSON) → α → α × Bool)
    (j : JSON) (cur : α) : α × Bool :=
  match j with
  | .null => (cur, false)
  | .object kvs => members kvs cur
  | _ => (cur, true)

/-- Decoding a JSON value into a pointer to a struct: `null` sets the pointer to nil,
any other value allocates the struct when the pointer is nil and decodes into it. -/
def decodePtr {α : Type} (zero : α) (members : List (String × JSON) → α → α × Bool)
    (j : JSON) (cur : Option α) : Option α × Bool :=
  match j with
  | .null => (none, false)
  | _ =>
    let r := decodeStruct members j (cur.getD zero)
    (some r.1, r.2)

/-- Encoding a pointer to a struct: nil is `null`, otherwise the object of the struct. -/
def encodePtr {α : Type} (members : α → List (String × JSON)) : Option α → JSON
  | none => .null
  | some a => .object (members a)

/-- The JSON codec of a struct type declared outside the repository: its zero value, the
members of the object `json.Marshal` produces for it, and how `json.Unmarshal` decodes
the members of an object into it. -/
structure StructCodec (J : Type) where
  zero : J
  marshal : J → List (String × JSON)
  unmarshal : List (String × JSON) → J → J × Bool

/-! ## The wrapped library (`github.com/sirupsen/logrus`) -/

namespace logrus

/-- The type `logrus.Level`: an unsigned ordinal, the most severe level first. -/
abbrev Level := Nat

/-- The constant `logrus.PanicLevel`. -/
abbrev PanicLevel : Level := 0
/-- The constant `logrus.FatalLevel`. -/
abbrev FatalLevel : Level := 1
/-- The constant `logrus.ErrorLevel`. -/
abbrev ErrorLevel : Level := 2
/-- The constant `logrus.WarnLevel`. -/
abbrev WarnLevel : Level := 3
/-- The constant `logrus.InfoLevel`. -/
abbrev InfoLevel : Level := 4
/-- The constant `logrus.DebugLevel`. -/
abbrev DebugLevel : Level := 5

/-- The struct `logrus.TextFormatter`: its exported options, in declaration order (the unexported
terminal state is not part of the configuration and is not encoded to JSON). -/
structure TextFormatter where
  ForceColors : Bool
  DisableColors : Bool
  DisableTimestamp : Bool
  FullTimestamp : Bool
  TimestampFormat : GoString
  DisableSorting : Bool
  QuoteEmptyFields : Bool
  deriving DecidableEq

/-- The value `logrus.TextFormatter{}`: every option at its zero value. -/
def TextFormatter.zero : TextFormatter :=
  { ForceColors := false, DisableColors := false, DisableTimestamp := false,
    FullTimestamp := false, TimestampFormat := [], DisableSorting := false,
    QuoteEmptyFields := false }

/-- The JSON names of the fields of `TextFormatter` (no tags: the Go names). -/
def TextFormatter.fieldNames : List String :=
  ["ForceColors", "DisableColors", "DisableTimestamp", "FullTimestamp",
   "TimestampFormat", "DisableSorting", "QuoteEmptyFields"]

/-- The members of the object `json.Marshal` produces for a `TextFormatter`. -/
def TextFormatter.marshal (t : TextFormatter) : List (String × JSON) :=
  [("ForceColors", .bool t.ForceColors),
   ("DisableColors", .bool t.DisableColors),
   ("DisableTimestamp", .bool t.DisableTimestamp),
   ("FullTimestamp", .bool t.FullTimestamp),
   ("TimestampFormat", .string (toText t.TimestampFormat)),
   ("DisableSorting", .bool t.DisableSorting),
   ("QuoteEmptyFields", .bool t.QuoteEmptyFields)]

/-- Decoding one object member into a `TextFormatter`; unknown keys are skipped. -/
def TextFormatter.setField (t : TextFormatter) (key : String) (v : JSON) :
    TextFormatter × Bool :=
  match fieldIndex TextFormatter.fieldNames key with
  | some 0 => let r := decodeBool v t.ForceColors; ({ t with ForceColors := r.1 }, r.2)
  | some 1 => let r := decodeBool v t.DisableColors; ({ t with DisableColors := r.1 }, r.2)
  | some 2 =>
    let r := decodeBool v t.DisableTimestamp; ({ t with DisableTimestamp := r.1 }, r.2)
  | some 3 => let r := decodeBool v t.FullTimestamp; ({ t with FullTimestamp := r.1 }, r.2)
  | some 4 =>
    let r := decodeString v t.TimestampFormat; ({ t with TimestampFormat := r.1 }, r.2)
  | some 5 => let r := decodeBool v t.DisableSorting; ({ t with DisableSorting := r.1 }, r.2)
  | some 6 =>
    let r := decodeBool v t.QuoteEmptyFields; ({ t with QuoteEmptyFields := r.1 }, r.2)
  | _ => (t, false)

/-- Decoding the members of an object into a `TextFormatter`. -/
def TextFormatter.unmarshal : List (String × JSON) → TextFormatter → TextFormatter × Bool :=
  decodeMembers TextFormatter.setField

/-- The interface `logrus.Formatter`, as far as the adapter installs one: a text formatter or a JSON
formatter with its options. -/
inductive Formatter (J : Type) where
  | text (f : TextFormatter)
  | json (f : J)
  deriving DecidableEq

/-- A destination of log output: the process's standard streams or a writer the caller
owns, named by a number. -/
inductive Sink where
  | Stdout
  | Stderr
  | writer (id : Nat)
  deriving DecidableEq

/-- The `io.Writer` a logger writes to: one sink, or `io.MultiWriter` over a list. -/
inductive Writer where
  | single (w : Sink)
  | MultiWriter (ws : List Sink)
  deriving DecidableEq

/-- What one log call hands to the output: the entry (level, fields, the arguments the
message is printed from) together with the formatter that renders it. -/
structure Record (J : Type) where
  formatter : Formatter J
  level : Level
  data : List (GoString × GoString)
  args : List GoString
  deriving DecidableEq

/-- The output so far: every `Write`, in order, with the sink it went to. -/
abbrev Output (J : Type) := List (Sink × Record J)

/-- The method `Write` on the logger's output: one sink receives the record; a multi-writer hands
the same record to each of its sinks in order. -/
def Writer.Write {J : Type} (w : Writer) (p : Record J) (out : Output J) : Output J :=
  match w with
  | .single s => out ++ [(s, p)]
  | .MultiWriter ws => out ++ ws.map (fun s => (s, p))

/-- The struct `logrus.Logger`. -/
structure Logger (J : Type) where
  Out : Writer
  Formatter : Formatter J
  Level : Level
  deriving DecidableEq

/-- The constructor `logrus.New()`: standard error, a zero text formatter, the info level. -/
def New {J : Type} : Logger J :=
  { Out := .single .Stderr, Formatter := .text TextFormatter.zero, Level := InfoLevel }

/-- The struct `logrus.Entry`: the logger and the fields attached to the record. -/
structure Entry (J : Type) where
  Logger : Logger J
  Data : List (GoString × GoString)
  deriving DecidableEq

/-- The method `Logger.WithField`: an entry of this logger carrying one field. -/
def Logger.WithField {J : Type} (l : Logger J) (key value : GoString) : Entry J :=
  { Logger := l, Data := [(key, value)] }

/-- The method `Entry.log`: render the entry and write it to the logger's output. -/
def Entry.log {J : Type} (e : Entry J) (level : Level) (args : List GoString)
    (out : Output J) : Output J :=
  e.Logger.Out.Write
    { formatter := e.Logger.Formatter, level := level, data := e.Data, args := args } out

/-- The method `Entry.Debug` -/
def Entry.Debug {J : Type} (e : Entry J) (args : List GoString) (out : Output J) : Output J :=
  if e.Logger.Level ≥ DebugLevel then e.log DebugLevel args out else out

/-- The method `Entry.Info` -/
def Entry.Info {J : Type} (e : Entry J) (args : List GoString) (out : Output J) : Output J :=
  if e.Logger.Level ≥ InfoLevel then e.log InfoLevel args out else out

/-- The method `Entry.Warning` (an alias of `Entry.Warn`) -/
def Entry.Warning {J : Type} (e : Entry J) (args : List GoString) (out : Output J) :
    Output J :=
  if e.Logger.Level ≥ WarnLevel then e.log WarnLevel args out else out

/-- The method `Entry.Error` -/
def Entry.Error {J : Type} (e : Entry J) (args : List GoString) (out : Output J) : Output J :=
  if e.Logger.Level ≥ ErrorLevel then e.log ErrorLevel args out else out

end logrus

/-! ## The adapter (`log.go`) -/

/-- A Go `error` value, identified by its message. -/
structure GoError where
  msg : GoString
  deriving DecidableEq

/-- Namespace is the key to look for extra configuration details. -/
def Namespace : GoString := utf8 "github_com/devopsfaith/krakend-logrus"

/-- ErrWrongConfig is the error returned when there is no config under the namespace. -/
def ErrWrongConfig : GoError :=
  ⟨utf8 "getting the extra config for the krakend-logrus module"⟩

/-- Config is the custom config struct containing the params for the logger. -/
structure Config (J : Type) where
  Level : GoString
  StdOut : Bool
  Syslog : Bool
  Module : GoString
  TextFormatter : Option logrus.TextFormatter
  JSONFormatter : Option J
  deriving DecidableEq

/-- The value `Config{}`: every field at its zero value. -/
def Config.zero {J : Type} : Config J :=
  { Level := [], StdOut := false, Syslog := false, Module := [],
    TextFormatter := none, JSONFormatter := none }

/-- The JSON names of the fields of `Config`, from the struct tags. -/
def Config.fieldNames : List String :=
  ["level", "stdout", "syslog", "module", "text", "json"]

/-- The members of the object `json.Marshal` produces for a `Config`. -/
def Config.marshal {J : Type} (cd : StructCodec J) (c : Config J) : List (String × JSON) :=
  [("level", .string (toText c.Level)),
   ("stdout", .bool c.StdOut),
   ("syslog", .bool c.Syslog),
   ("module", .string (toText c.Module)),
   ("text", encodePtr logrus.TextFormatter.marshal c.TextFormatter),
   ("json", encodePtr cd.marshal c.JSONFormatter)]

/-- Decoding one object member into a `Config`; unknown keys are skipped. -/
def Config.setField {J : Type} (cd : StructCodec J) (c : Config J) (key : String)
    (v : JSON) : Config J × Bool :=
  match fieldIndex Config.fieldNames key with
  | some 0 => let r := decodeString v c.Level; ({ c with Level := r.1 }, r.2)
  | some 1 => let r := decodeBool v c.StdOut; ({ c with StdOut := r.1 }, r.2)
  | some 2 => let r := decodeBool v c.Syslog; ({ c with Syslog := r.1 }, r.2)
  | some 3 => let r := decodeString v c.Module; ({ c with Module := r.1 }, r.2)
  | some 4 =>
    let r := decodePtr logrus.TextFormatter.zero logrus.TextFormatter.unmarshal v
      c.TextFormatter
    ({ c with TextFormatter := r.1 }, r.2)
  | some 5 =>
    let r := decodePtr cd.zero cd.unmarshal v c.JSONFormatter
    ({ c with JSONFormatter := r.1 }, r.2)
  | _ => (c, false)

/-- A value held in the extra-configuration map (a Go `interface{}`): a `Config` struct,
plain data as a configuration parser yields it (nil, bool, number, string, slice, map;
its strings are text),
or a value `encoding/json` cannot encode (a channel, a function). -/
inductive Value (J : Type) where
  | config (c : Config J)
  | data (j : JSON)
  | unsupported

/-- The type `config.ExtraConfig`: a map from strings to arbitrary values. -/
abbrev ExtraConfig (J : Type) := List (GoString × Value J)

/-- The call `json.Marshal(v)`: the document and whether the error is non-nil. The
string fields of a `Config` are written as the text `toText` reads in them. -/
def Marshal {J : Type} (cd : StructCodec J) (v : Value J) : JSON × Bool :=
  match v with
  | .config c => (.object (Config.marshal cd c), false)
  | .data j => (j, false)
  | .unsupported => (.null, true)

/-- The call `json.Unmarshal(data, &cfg)`: the struct after decoding and whether the
error is non-nil. -/
def Unmarshal {J : Type} (cd : StructCodec J) (data : JSON) (cfg : Config J) :
    Config J × Bool :=
  decodeStruct (decodeMembers (Config.setField cd)) data cfg

/-- ConfigGetter implements the config.ConfigGetter interface. The result is nil
(`none`) or a `Config`. The statement guarding `json.Unmarshal` tests the variable `err`
that `json.Marshal` assigned; the error of `json.Unmarshal` itself is not kept. -/
def ConfigGetter {J : Type} (cd : StructCodec J) (e : ExtraConfig J) : Option (Config J) :=
  match e.lookup Namespace with
  | none => none
  | some v =>
    let cfg : Config J := Config.zero
    let m := Marshal cd v
    let data := m.1
    let err := m.2
    if err then none
    else
      let cfg := (Unmarshal cd data cfg).1
      if err then none
      else some cfg

/-- Logger is a wrapper over a github.com/sirupsen/logrus logger. -/
structure Logger (J : Type) where
  logger : logrus.Logger J
  level : logrus.Level
  module : GoString
  deriving DecidableEq

/-- The table `logLevels`. -/
def logLevels : List (GoString × logrus.Level) :=
  [(utf8 "DEBUG", logrus.DebugLevel),
   (utf8 "INFO", logrus.InfoLevel),
   (utf8 "WARNING", logrus.WarnLevel),
   (utf8 "ERROR", logrus.ErrorLevel),
   (utf8 "CRITICAL", logrus.FatalLevel)]

/-- The function `setFormatter`. -/
def setFormatter {J : Type} (l : logrus.Logger J) (cfg : Config J) : logrus.Logger J :=
  match cfg.JSONFormatter, cfg.TextFormatter with
  | some j, _ => { l with Formatter := .json j }
  | none, some t => { l with Formatter := .text t }
  | none, none => { l with Formatter := .text logrus.TextFormatter.zero }

/-- The function `setOutput`. The branch on `cfg.Syslog` has an empty body. -/
def setOutput {J : Type} (l : logrus.Logger J) (cfg : Config J) (ws : List logrus.Sink) :
    logrus.Logger J :=
  let ws := if cfg.StdOut then ws ++ [logrus.Sink.Stdout] else ws
  let ws := if cfg.Syslog then ws else ws
  match ws with
  | [w] => { l with Out := .single w }
  | _ => { l with Out := .MultiWriter ws }

/-- NewLogger returns a krakend logger wrapping a logrus logger. -/
def NewLogger {J : Type} (cd : StructCodec J) (cfg : ExtraConfig J)
    (ws : List logrus.Sink) : Except GoError (Logger J) :=
  match ConfigGetter cd cfg with
  | none => .error ErrWrongConfig
  | some logConfig =>
    match logLevels.lookup logConfig.Level with
    | none => .error ⟨utf8 "unknown log level: " ++ logConfig.Level⟩
    | some level =>
      let l : logrus.Logger J := logrus.New
      let l := setFormatter l logConfig
      let l := setOutput l logConfig ws
      let l := { l with Level := logrus.DebugLevel }
      .ok { logger := l, level := level, module := logConfig.Module }

/-- Debug implements the logger interface. -/
def Logger.Debug {J : Type} (l : Logger J) (v : List GoString) (out : logrus.Output J) :
    logrus.Output J :=
  if l.level < logrus.DebugLevel then out
  else (l.logger.WithField (utf8 "module") l.module).Debug v out

/-- Info implements the logger interface. -/
def Logger.Info {J : Type} (l : Logger J) (v : List GoString) (out : logrus.Output J) :
    logrus.Output J :=
  if l.level < logrus.InfoLevel then out
  else (l.logger.WithField (utf8 "module") l.module).Info v out

/-- Warning implements the logger interface. -/
def Logger.Warning {J : Type} (l : Logger J) (v : List GoString) (out : logrus.Output J) :
    logrus.Output J :=
  if l.level < logrus.WarnLevel then out
  else (l.logger.WithField (utf8 "module") l.module).Warning v out

/-- Error implements the logger interface. -/
def Logger.Error {J : Type} (l : Logger J) (v : List GoString) (out : logrus.Output J) :
    logrus.Output J :=
  if l.level < logrus.ErrorLevel then out
  else (l.logger.WithField (utf8 "module") l.module).Error v out

/-- Critical implements the logger interface but demotes to the error level. -/
def Logger.Critical {J : Type} (l : Logger J) (v : List GoString) (out : logrus.Output J) :
    logrus.Output J :=
  (l.logger.WithField (utf8 "module") l.module).Error v out

/-- A codec for a JSON formatter without options, used to evaluate the definitions. -/
def unitCodec : StructCodec Unit :=
  { zero := (), marshal := fun _ => [], unmarshal := fun _ u => (u, false) }

/-- The configuration of the tests: the given level, module `pref`, no standard output,
and a text formatter with full timestamps. -/
def testConfig (level : GoString) : Config Unit :=
  { Level := level, Module := utf8 "pref", Syslog := false, StdOut := false,
    TextFormatter := some { logrus.TextFormatter.zero with FullTimestamp := true },
    JSONFormatter := none }

/-- The store of the tests (`newExtraConfig`): the test configuration, held under the
key `Namespace`. -/
def newExtraConfig (level : GoString) : ExtraConfig Unit :=
  [(Namespace, .config (testConfig level))]

/-- The logger the tests obtain for one caller-supplied sink, numbered 0, at the given
threshold: the text formatter of the test configuration, the wrapped logger at the debug
level, the module label `pref`. -/
def testLogger (level : logrus.Level) : Logger Unit :=
  { logger := { Out := .single (.writer 0),
                Formatter := .text { logrus.TextFormatter.zero with FullTimestamp := true },
                Level := logrus.DebugLevel },
    level := level, module := utf8 "pref" }

/-- What decoding the JSON of a `Config` yields: the same struct with its strings
turned into valid UTF-8 and its JSON formatter block (when present) passed through the
codec of that type. -/
def Config.reparsed {J : Type} (cd : StructCodec J) (c : Config J) : Config J :=
  { c with
    Level := toValidUTF8 c.Level
    Module := toValidUTF8 c.Module
    TextFormatter := c.TextFormatter.map
      (fun t => { t with TimestampFormat := toValidUTF8 t.TimestampFormat })
    JSONFormatter := c.JSONFormatter.map (fun j => (cd.unmarshal (cd.marshal j) cd.zero).1) }

/-! ## The scenario of the tests and the vocabulary of the specification -/

/-- The five gated operations of the logging interface. -/
inductive Call where
  | Debug
  | Info
  | Warning
  | Error
  | Critical
  deriving DecidableEq

/-- The severity of an operation in the specification's order: debug below info below
warning below error below critical. -/
def Call.severity : Call → Nat
  | .Debug => 0
  | .Info => 1
  | .Warning => 2
  | .Error => 3
  | .Critical => 4

/-- The level a record of the operation carries in the wrapped library: critical is
written at the error level. -/
def Call.level : Call → logrus.Level
  | .Debug => logrus.DebugLevel
  | .Info => logrus.InfoLevel
  | .Warning => logrus.WarnLevel
  | .Error => logrus.ErrorLevel
  | .Critical => logrus.ErrorLevel

/-- The recognised level strings. -/
def levelNames : List GoString :=
  [utf8 "DEBUG", utf8 "INFO", utf8 "WARNING", utf8 "ERROR", utf8 "CRITICAL"]

/-- The severity a recognised level string names, in the specification's order. -/
def thresholdSeverity (level : GoString) : Option Nat :=
  [(utf8 "DEBUG", 0), (utf8 "INFO", 1), (utf8 "WARNING", 2), (utf8 "ERROR", 3),
   (utf8 "CRITICAL", 4)].lookup level

/-- Invoking one operation on the adapter. -/
def Logger.call {J : Type} (l : Logger J) (c : Call) (v : List GoString)
    (out : logrus.Output J) : logrus.Output J :=
  match c with
  | .Debug => l.Debug v out
  | .Info => l.Info v out
  | .Warning => l.Warning v out
  | .Error => l.Error v out
  | .Critical => l.Critical v out

/-- The scenario of the tests (`logSomeStuff`): one call of each operation, in the order
debug, info, warning, error, critical, on an empty output. -/
def fiveCalls {J : Type} (l : Logger J) (vd vi vw ve vc : List GoString) : logrus.Output J :=
  let out := l.Debug vd []
  let out := l.Info vi out
  let out := l.Warning vw out
  let out := l.Error ve out
  l.Critical vc out

/-- The sinks the specification assigns to a logger: the caller-supplied ones, followed
by standard output when the stdout flag is set. -/
def sinksOf {J : Type} (c : Config J) (ws : List logrus.Sink) : List logrus.Sink :=
  ws ++ (if c.StdOut then [logrus.Sink.Stdout] else [])

/-- One copy of a record for each sink, in the order of the sinks. -/
def fanOut {J : Type} (sinks : List logrus.Sink) (p : logrus.Record J) : logrus.Output J :=
  sinks.map (fun s => (s, p))

/-- The record of an operation called with arguments `v` on a logger with the given
formatter and module label. -/
def recordOf {J : Type} (f : logrus.Formatter J) (module : GoString) (c : Call)
    (v : List GoString) : logrus.Record J :=
  { formatter := f, level := c.level, data := [(utf8 "module", module)], args := v }

/-! ## Lemmas on UTF-8 -/

/-- A code point outside the surrogate range is the code point of its character. -/
theorem toNat_ofNat_valid (n : Nat) (h : n < 0xD800 ∨ (0xDFFF < n ∧ n < 0x110000)) :
    (Char.ofNat n).toNat = n := by
  have hv : n.isValidChar := h
  simp only [Char.ofNat, hv, dite_true, Char.ofNatAux, Char.toNat]
  rfl

/-- Encoding a one-byte code point. -/
theorem EncodeRune_one (n : Nat) (h : n < 0x80) :
    EncodeRune (Char.ofNat n) = [n] := by
  have := toNat_ofNat_valid n (by omega)
  simp [EncodeRune, this, h]

/-- Encoding the code point of a valid two-byte sequence gives the sequence back. -/
theorem EncodeRune_two (b0 b1 : Nat) (h0 : 0xC2 ≤ b0 ∧ b0 ≤ 0xDF)
    (h1 : 0x80 ≤ b1 ∧ b1 ≤ 0xBF) :
    EncodeRune (Char.ofNat (b0 % 32 * 64 + b1 % 64)) = [b0, b1] := by
  have hr := toNat_ofNat_valid (b0 % 32 * 64 + b1 % 64) (by omega)
  unfold EncodeRune
  simp only [hr]
  rw [if_neg (by omega), if_pos (by omega)]
  have e0 : 0xC0 + (b0 % 32 * 64 + b1 % 64) / 64 = b0 := by omega
  have e1 : 0x80 + (b0 % 32 * 64 + b1 % 64) % 64 = b1 := by omega
  rw [e0, e1]

/-- Encoding the code point of a valid three-byte sequence gives the sequence back. -/
theorem EncodeRune_three (b0 b1 b2 : Nat) (h0 : 0xE0 ≤ b0 ∧ b0 ≤ 0xEF)
    (h1 : (acceptRange b0).1 ≤ b1 ∧ b1 ≤ (acceptRange b0).2)
    (h2 : 0x80 ≤ b2 ∧ b2 ≤ 0xBF) :
    EncodeRune (Char.ofNat (b0 % 16 * 4096 + b1 % 64 * 64 + b2 % 64)) = [b0, b1, b2] := by
  have hb : 0x80 ≤ b1 ∧ b1 ≤ 0xBF ∧ (b0 = 0xE0 → 0xA0 ≤ b1) ∧ (b0 = 0xED → b1 ≤ 0x9F) := by
    unfold acceptRange at h1
    split_ifs at h1 <;> simp at h1 <;> omega
  have hr := toNat_ofNat_valid (b0 % 16 * 4096 + b1 % 64 * 64 + b2 % 64) (by omega)
  unfold EncodeRune
  simp only [hr]
  rw [if_neg (by omega), if_neg (by omega), if_pos (by omega)]
  have e0 : 0xE0 + (b0 % 16 * 4096 + b1 % 64 * 64 + b2 % 64) / 4096 = b0 := by omega
  have e1 : 0x80 + (b0 % 16 * 4096 + b1 % 64 * 64 + b2 % 64) / 64 % 64 = b1 := by omega
  have e2 : 0x80 + (b0 % 16 * 4096 + b1 % 64 * 64 + b2 % 64) % 64 = b2 := by omega
  rw [e0, e1, e2]

/-- Encoding the code point of a valid four-byte sequence gives the sequence back. -/
theorem EncodeRune_four (b0 b1 b2 b3 : Nat) (h0 : 0xF0 ≤ b0 ∧ b0 ≤ 0xF4)
    (h1 : (acceptRange b0).1 ≤ b1 ∧ b1 ≤ (acceptRange b0).2)
    (h2 : 0x80 ≤ b2 ∧ b2 ≤ 0xBF) (h3 : 0x80 ≤ b3 ∧ b3 ≤ 0xBF) :
    EncodeRune (Char.ofNat (b0 % 8 * 262144 + b1 % 64 * 4096 + b2 % 64 * 64 + b3 % 64))
      = [b0, b1, b2, b3] := by
  have hb : 0x80 ≤ b1 ∧ b1 ≤ 0xBF ∧ (b0 = 0xF0 → 0x90 ≤ b1) ∧ (b0 = 0xF4 → b1 ≤ 0x8F) := by
    unfold acceptRange at h1
    split_ifs at h1 <;> simp at h1 <;> omega
  have hr := toNat_ofNat_valid
    (b0 % 8 * 262144 + b1 % 64 * 4096 + b2 % 64 * 64 + b3 % 64) (by omega)
  unfold EncodeRune
  simp only [hr]
  rw [if_neg (by omega), if_neg (by omega), if_neg (by omega)]
  have e0 : 0xF0 + (b0 % 8 * 262144 + b1 % 64 * 4096 + b2 % 64 * 64 + b3 % 64) / 262144
      = b0 := by omega
  have e1 : 0x80 + (b0 % 8 * 262144 + b1 % 64 * 4096 + b2 % 64 * 64 + b3 % 64) / 4096 % 64
      = b1 := by omega
  have e2 : 0x80 + (b0 % 8 * 262144 + b1 % 64 * 4096 + b2 % 64 * 64 + b3 % 64) / 64 % 64
      = b2 := by omega
  have e3 : 0x80 + (b0 % 8 * 262144 + b1 % 64 * 4096 + b2 % 64 * 64 + b3 % 64) % 64
      = b3 := by omega
  rw [e0, e1, e2, e3]

/-- Where a string starts with a valid encoding, encoding the decoded code point and
appending the rest of the string gives the string back. -/
theorem DecodeRune_encode (s : GoString) (hs : s ≠ [])
    (h : ¬ ((DecodeRune s).1 = 0xFFFD ∧ (DecodeRune s).2 = 1)) :
    EncodeRune (Char.ofNat (DecodeRune s).1) ++ s.drop (DecodeRune s).2 = s ∧
      1 ≤ (DecodeRune s).2 := by
  match s, hs with
  | b0 :: rest, _ =>
    unfold DecodeRune at h ⊢
    by_cases h1 : b0 < 0x80
    · simp only [h1, if_true] at h ⊢
      rw [EncodeRune_one b0 h1]
      simp
    · simp only [h1, if_false] at h ⊢
      by_cases h2 : 0xC2 ≤ b0 ∧ b0 ≤ 0xDF
      · simp only [h2, and_self, if_true] at h ⊢
        match rest with
        | [] => simp at h
        | b1 :: rest1 =>
          by_cases c1 : 0x80 ≤ b1 ∧ b1 ≤ 0xBF
          · simp only [c1, and_self, if_true] at h ⊢
            rw [EncodeRune_two b0 b1 h2 c1]
            simp
          · simp [c1] at h
      · simp only [h2, if_false] at h ⊢
        by_cases h3 : 0xE0 ≤ b0 ∧ b0 ≤ 0xEF
        · simp only [h3, and_self, if_true] at h ⊢
          match rest with
          | [] => simp at h
          | [_] => simp at h
          | b1 :: b2 :: rest2 =>
            by_cases c1 : (acceptRange b0).1 ≤ b1 ∧ b1 ≤ (acceptRange b0).2 ∧
                0x80 ≤ b2 ∧ b2 ≤ 0xBF
            · simp only [c1, and_self, if_true] at h ⊢
              rw [EncodeRune_three b0 b1 b2 h3 ⟨c1.1, c1.2.1⟩ c1.2.2]
              simp
            · simp [c1] at h
        · simp only [h3, if_false] at h ⊢
          by_cases h4 : 0xF0 ≤ b0 ∧ b0 ≤ 0xF4
          · simp only [h4, and_self, if_true] at h ⊢
            match rest with
            | [] => simp at h
            | [_] => simp at h
            | [_, _] => simp at h
            | b1 :: b2 :: b3 :: rest3 =>
              by_cases c1 : (acceptRange b0).1 ≤ b1 ∧ b1 ≤ (acceptRange b0).2 ∧
                  0x80 ≤ b2 ∧ b2 ≤ 0xBF ∧ 0x80 ≤ b3 ∧ b3 ≤ 0xBF
              · simp only [c1, and_self, if_true] at h ⊢
                rw [EncodeRune_four b0 b1 b2 b3 h4 ⟨c1.1, c1.2.1⟩
                  ⟨c1.2.2.1, c1.2.2.2.1⟩ c1.2.2.2.2]
                simp
              · simp [c1] at h
          · simp [h4] at h

/-- Reading a valid string rune by rune and encoding the runes gives the string back. -/
theorem utf8_toRunes (n : Nat) : ∀ s : GoString, s.length ≤ n → validPrefix n s = true →
    (toRunes n s).flatMap EncodeRune = s := by
  induction n with
  | zero =>
    intro s hl _
    have : s = [] := List.length_eq_zero.mp (Nat.le_zero.mp hl)
    subst this
    rfl
  | succ n ih =>
    intro s hl hv
    match s with
    | [] => rfl
    | b :: bs =>
      simp only [validPrefix] at hv
      split_ifs at hv with hbad
      have key := DecodeRune_encode (b :: bs) (by simp) hbad
      simp only [toRunes, List.flatMap_cons]
      rw [ih _ (by simp only [List.length_drop, List.length_cons] at hl ⊢; omega) hv]
      exact key.1

/-- A valid UTF-8 string survives the JSON round trip unchanged. -/
theorem toValidUTF8_of_valid (s : GoString) (h : ValidString s = true) :
    toValidUTF8 s = s :=
  utf8_toRunes s.length s (Nat.le_refl _) h

/-! ## Lemmas on the configuration round trip -/

theorem fieldIndex_level : fieldIndex Config.fieldNames "level" = some 0 := by decide

theorem fieldIndex_stdout : fieldIndex Config.fieldNames "stdout" = some 1 := by decide

theorem fieldIndex_syslog : fieldIndex Config.fieldNames "syslog" = some 2 := by decide

theorem fieldIndex_module : fieldIndex Config.fieldNames "module" = some 3 := by decide

theorem fieldIndex_text : fieldIndex Config.fieldNames "text" = some 4 := by decide

theorem fieldIndex_json : fieldIndex Config.fieldNames "json" = some 5 := by decide

theorem fieldIndex_ForceColors :
    fieldIndex logrus.TextFormatter.fieldNames "ForceColors" = some 0 := by decide

theorem fieldIndex_DisableColors :
    fieldIndex logrus.TextFormatter.fieldNames "DisableColors" = some 1 := by decide

theorem fieldIndex_DisableTimestamp :
    fieldIndex logrus.TextFormatter.fieldNames "DisableTimestamp" = some 2 := by decide

theorem fieldIndex_FullTimestamp :
    fieldIndex logrus.TextFormatter.fieldNames "FullTimestamp" = some 3 := by decide

theorem fieldIndex_TimestampFormat :
    fieldIndex logrus.TextFormatter.fieldNames "TimestampFormat" = some 4 := by decide

theorem fieldIndex_DisableSorting :
    fieldIndex logrus.TextFormatter.fieldNames "DisableSorting" = some 5 := by decide

theorem fieldIndex_QuoteEmptyFields :
    fieldIndex logrus.TextFormatter.fieldNames "QuoteEmptyFields" = some 6 := by decide

/-- Decoding the object of a text formatter gives it back, its timestamp format turned
into valid UTF-8, without error. -/
theorem TextFormatter_roundtrip (t cur : logrus.TextFormatter) :
    logrus.TextFormatter.unmarshal (logrus.TextFormatter.marshal t) cur
      = ({ t with TimestampFormat := toValidUTF8 t.TimestampFormat }, false) := by
  simp [logrus.TextFormatter.unmarshal, logrus.TextFormatter.marshal, decodeMembers,
    logrus.TextFormatter.setField, fieldIndex_ForceColors, fieldIndex_DisableColors,
    fieldIndex_DisableTimestamp, fieldIndex_FullTimestamp, fieldIndex_TimestampFormat,
    fieldIndex_DisableSorting, fieldIndex_QuoteEmptyFields, decodeBool, decodeString,
    toValidUTF8]

/-- Decoding the JSON of a `Config` into a zero `Config`. -/
theorem Unmarshal_Marshal_config {J : Type} (cd : StructCodec J) (c : Config J) :
    (Unmarshal cd (Marshal cd (.config c)).1 Config.zero).1 = Config.reparsed cd c := by
  obtain ⟨lv, so, sy, md, tf, jf⟩ := c
  cases tf <;> cases jf <;>
    simp [Unmarshal, Marshal, Config.marshal, decodeStruct, decodeMembers, Config.setField,
      fieldIndex_level, fieldIndex_stdout, fieldIndex_syslog, fieldIndex_module,
      fieldIndex_text, fieldIndex_json, decodeBool, decodeString, decodePtr, encodePtr,
      Config.zero, Config.reparsed, TextFormatter_roundtrip, toValidUTF8]

/-- On a store holding a `Config` under the namespace, `ConfigGetter` returns that
configuration as re-parsed from its JSON. -/
theorem ConfigGetter_config {J : Type} (cd : StructCodec J) (e : ExtraConfig J)
    (c : Config J) (h : e.lookup Namespace = some (.config c)) :
    ConfigGetter cd e = some (Config.reparsed cd c) := by
  have hm : (Marshal cd (Value.config c)).2 = false := rfl
  simp [ConfigGetter, h, hm, Unmarshal_Marshal_config]

/-- A level string outside the table has no entry in `logLevels`. -/
theorem logLevels_lookup_none (s : GoString) (h : s ∉ levelNames) :
    logLevels.lookup s = none := by
  simp only [levelNames, List.mem_cons, List.mem_singleton, List.not_mem_nil, or_false,
    not_or] at h
  obtain ⟨h1, h2, h3, h4, h5⟩ := h
  have e1 : (s == utf8 "DEBUG") = false := by simpa using h1
  have e2 : (s == utf8 "INFO") = false := by simpa using h2
  have e3 : (s == utf8 "WARNING") = false := by simpa using h3
  have e4 : (s == utf8 "ERROR") = false := by simpa using h4
  have e5 : (s == utf8 "CRITICAL") = false := by simpa using h5
  simp [logLevels, List.lookup, e1, e2, e3, e4, e5]

/-! ## Lemmas on construction -/

/-- A recognised level string has an entry in `logLevels`. -/
theorem logLevels_lookup_some (s : GoString) (h : s ∈ levelNames) :
    ∃ lv, logLevels.lookup s = some lv := by
  simp only [levelNames, List.mem_cons, List.mem_singleton, List.not_mem_nil, or_false] at h
  rcases h with h | h | h | h | h <;> subst h <;> exact ⟨_, rfl⟩

/-- The function `setOutput` in terms of the sinks the specification names. -/
theorem setOutput_eq {J : Type} (l : logrus.Logger J) (c : Config J)
    (ws : List logrus.Sink) :
    setOutput l c ws =
      match sinksOf c ws with
      | [w] => { l with Out := .single w }
      | _ => { l with Out := .MultiWriter (sinksOf c ws) } := by
  unfold setOutput sinksOf
  cases c.StdOut <;> cases c.Syslog <;> simp

/-- Writing through the output `setOutput` installs hands the record to each of the
sinks the specification names, in order. -/
theorem setOutput_Write {J : Type} (l : logrus.Logger J) (c : Config J)
    (ws : List logrus.Sink) (p : logrus.Record J) (out : logrus.Output J) :
    (setOutput l c ws).Out.Write p out = out ++ fanOut (sinksOf c ws) p := by
  have key : ∀ xs : List logrus.Sink,
      (match xs with
        | [w] => ({ l with Out := .single w } : logrus.Logger J)
        | _ => { l with Out := .MultiWriter xs }).Out.Write p out
        = out ++ xs.map (fun s => (s, p)) := by
    intro xs
    match xs with
    | [] => simp [logrus.Writer.Write]
    | [w] => simp [logrus.Writer.Write]
    | w :: w2 :: rest => simp [logrus.Writer.Write]
  unfold setOutput sinksOf fanOut
  cases c.StdOut <;> cases c.Syslog
  · simpa using key ws
  · simpa using key ws
  · simpa using key (ws ++ [logrus.Sink.Stdout])
  · simpa using key (ws ++ [logrus.Sink.Stdout])

/-- The logger `NewLogger` builds for a configuration with a recognised level. -/
theorem NewLogger_ok {J : Type} (cd : StructCodec J) (e : ExtraConfig J)
    (ws : List logrus.Sink) (c : Config J) (lv : logrus.Level)
    (hc : ConfigGetter cd e = some c) (hl : logLevels.lookup c.Level = some lv) :
    NewLogger cd e ws =
      .ok { logger := { setOutput (setFormatter logrus.New c) c ws with
                        Level := logrus.DebugLevel },
            level := lv, module := c.Module } := by
  simp [NewLogger, hc, hl]

/-! ## Configuration extraction and construction errors -/

/-- C2, as stated, fails: the store holds a `Config` whose level string is the single
byte 0xFF, which is none of the recognised names; `NewLogger` returns an error whose
message is `unknown log level: ` followed by the three bytes of U+FFFD, not by the
stored level string. -/
theorem NewLogger_unknownLevel_invalidUTF8 :
    (newExtraConfig [0xFF]).lookup Namespace = some (.config (testConfig [0xFF])) ∧
    (testConfig [0xFF]).Level ∉ levelNames ∧
    NewLogger unitCodec (newExtraConfig [0xFF]) [.writer 0]
      = .error ⟨utf8 "unknown log level: " ++ [0xEF, 0xBF, 0xBD]⟩ ∧
    NewLogger unitCodec (newExtraConfig [0xFF]) [.writer 0]
      ≠ .error ⟨utf8 "unknown log level: " ++ (testConfig [0xFF]).Level⟩ := by
  refine ⟨rfl, by decide, rfl, ?_⟩
  intro h
  have h2 : (Except.error ⟨utf8 "unknown log level: " ++ [0xEF, 0xBF, 0xBD]⟩ :
      Except GoError (Logger Unit))
      = .error ⟨utf8 "unknown log level: " ++ (testConfig [0xFF]).Level⟩ := h
  exact absurd (Except.error.inj h2) (by decide)

/-- C2, amended: when the store holds under `Namespace` a `Config` whose level string `s`
is valid UTF-8 (or when `s` is the level of the configuration `ConfigGetter` yields) and
`s` is not one of DEBUG, INFO, WARNING, ERROR, CRITICAL, then for every list of sinks
`NewLogger` returns no logger and the error whose message is `unknown log level: `
followed by `s`. -/
theorem NewLogger_unknownLevel {J : Type} (cd : StructCodec J) (e : ExtraConfig J)
    (ws : List logrus.Sink) (c : Config J)
    (h : (e.lookup Namespace = some (.config c) ∧ ValidString c.Level = true) ∨
      ConfigGetter cd e = some c)
    (hs : c.Level ∉ levelNames) :
    NewLogger cd e ws = .error ⟨utf8 "unknown log level: " ++ c.Level⟩ := by
  have hl := logLevels_lookup_none c.Level hs
  rcases h with ⟨h, hv⟩ | h
  · have hlev : (Config.reparsed cd c).Level = c.Level := toValidUTF8_of_valid c.Level hv
    simp only [NewLogger, ConfigGetter_config cd e c h, hlev, hl]
  · simp [NewLogger, h, hl]

/-- The test `TestNewLogger_unknownLevel`: the level UNKNOWN is rejected with the message
`unknown log level: UNKNOWN`. -/
theorem NewLogger_unknownLevel_witness :
    (((newExtraConfig (utf8 "UNKNOWN")).lookup Namespace
        = some (.config (testConfig (utf8 "UNKNOWN"))) ∧
      ValidString (testConfig (utf8 "UNKNOWN")).Level = true) ∧
      (testConfig (utf8 "UNKNOWN")).Level ∉ levelNames) ∧
    NewLogger unitCodec (newExtraConfig (utf8 "UNKNOWN")) [.writer 0]
      = .error ⟨utf8 "unknown log level: UNKNOWN"⟩ :=
  ⟨⟨⟨rfl, by decide⟩, by decide⟩,
   NewLogger_unknownLevel unitCodec (newExtraConfig (utf8 "UNKNOWN")) [.writer 0]
    (testConfig (utf8 "UNKNOWN")) (Or.inl ⟨rfl, by decide⟩) (by decide)⟩

/-- C3: when the store has no entry under `Namespace`, `ConfigGetter` returns nil and,
for every list of sinks, `NewLogger` returns no logger and the error `ErrWrongConfig`,
which is not an unknown-level error for any level string. -/
theorem NewLogger_missingConfig {J : Type} (cd : StructCodec J) (e : ExtraConfig J)
    (ws : List logrus.Sink) (h : e.lookup Namespace = none) :
    ConfigGetter cd e = none ∧
    NewLogger cd e ws = .error ErrWrongConfig ∧
    ∀ s : GoString, NewLogger cd e ws ≠ .error ⟨utf8 "unknown log level: " ++ s⟩ := by
  have hc : ConfigGetter cd e = none := by simp [ConfigGetter, h]
  have hn : NewLogger cd e ws = .error ErrWrongConfig := by simp [NewLogger, hc]
  refine ⟨hc, hn, ?_⟩
  intro s hne
  rw [hn] at hne
  have hmsg : ErrWrongConfig.msg = utf8 "unknown log level: " ++ s := by
    injection hne with h1
    exact congrArg GoError.msg h1
  have hd : (ErrWrongConfig.msg).head? = (utf8 "unknown log level: " ++ s).head? :=
    congrArg List.head? hmsg
  have h1 : (ErrWrongConfig.msg).head? = some 103 := by decide
  have h2 : (utf8 "unknown log level: " ++ s).head? = some 117 := rfl
  rw [h1, h2] at hd
  exact absurd hd (by decide)

/-- The empty store has no entry under the namespace and is refused with
`ErrWrongConfig`. -/
theorem NewLogger_missingConfig_witness :
    ([] : ExtraConfig Unit).lookup Namespace = none ∧
    (ConfigGetter unitCodec [] = none ∧
     NewLogger unitCodec [] [.writer 0] = .error ErrWrongConfig ∧
     ∀ s : GoString, NewLogger unitCodec [] [.writer 0]
        ≠ .error ⟨utf8 "unknown log level: " ++ s⟩) :=
  ⟨rfl, NewLogger_missingConfig unitCodec [] [.writer 0] rfl⟩

/-- C4, evaluated on entries that do not have the shape of a `Config`. For the bare
string `oops`, `ConfigGetter` returns the zero `Config` instead of nil and `NewLogger`
fails with the unknown-level error for the empty level, not with `ErrWrongConfig`. For an
object whose `stdout` is a string, `ConfigGetter` returns the fields that did decode and
`NewLogger` builds a logger. -/
theorem ConfigGetter_malformed :
    ConfigGetter unitCodec [(Namespace, .data (.string "oops"))] = some Config.zero ∧
    (Unmarshal unitCodec (.string "oops") Config.zero).2 = true ∧
    NewLogger unitCodec [(Namespace, .data (.string "oops"))] []
      = .error ⟨utf8 "unknown log level: "⟩ ∧
    NewLogger unitCodec [(Namespace, .data (.string "oops"))] [] ≠ .error ErrWrongConfig ∧
    (Unmarshal unitCodec
      (.object [("level", .string "DEBUG"), ("stdout", .string "yes")]) Config.zero).2
        = true ∧
    ConfigGetter unitCodec
      [(Namespace, .data (.object [("level", .string "DEBUG"), ("stdout", .string "yes")]))]
      = some { (Config.zero : Config Unit) with Level := utf8 "DEBUG" } ∧
    ∃ l, NewLogger unitCodec
      [(Namespace, .data (.object [("level", .string "DEBUG"), ("stdout", .string "yes")]))]
      [] = .ok l := by
  refine ⟨rfl, rfl, rfl, ?_, rfl, rfl, ⟨_, rfl⟩⟩
  intro h
  have h2 : (Except.error ⟨utf8 "unknown log level: "⟩ : Except GoError (Logger Unit))
      = .error ErrWrongConfig := h
  exact absurd (Except.error.inj h2) (by decide)

/-- C6, as stated, fails: the entry of CRITICAL in `logLevels` is not the error level. -/
theorem logLevels_critical_not_error :
    ¬ (logLevels.lookup (utf8 "DEBUG") = some logrus.DebugLevel ∧
       logLevels.lookup (utf8 "INFO") = some logrus.InfoLevel ∧
       logLevels.lookup (utf8 "WARNING") = some logrus.WarnLevel ∧
       logLevels.lookup (utf8 "ERROR") = some logrus.ErrorLevel ∧
       logLevels.lookup (utf8 "CRITICAL") = some logrus.ErrorLevel) := by
  decide

/-- C6, amended: `logLevels` maps DEBUG, INFO, WARNING and ERROR onto the library's
debug, info, warning and error ordinals and CRITICAL onto the library's fatal ordinal,
which is the ordinal next below the error ordinal, so that a logger whose threshold is
the entry of CRITICAL gates its Error calls. -/
theorem logLevels_table :
    logLevels.lookup (utf8 "DEBUG") = some logrus.DebugLevel ∧
    logLevels.lookup (utf8 "INFO") = some logrus.InfoLevel ∧
    logLevels.lookup (utf8 "WARNING") = some logrus.WarnLevel ∧
    logLevels.lookup (utf8 "ERROR") = some logrus.ErrorLevel ∧
    logLevels.lookup (utf8 "CRITICAL") = some logrus.FatalLevel ∧
    logrus.FatalLevel + 1 = logrus.ErrorLevel ∧
    ∀ (J : Type) (lg : logrus.Logger J) (m : GoString) (v : List GoString)
      (out : logrus.Output J),
      Logger.Error { logger := lg, level := logrus.FatalLevel, module := m } v out = out :=
  ⟨by decide, by decide, by decide, by decide, by decide, rfl,
   fun _ _ _ _ _ => if_pos (show logrus.FatalLevel < logrus.ErrorLevel by decide)⟩

/-- C9, as stated, fails: the store holds a `Config` whose level string is the single
byte 0xFF; `ConfigGetter` returns a `Config` whose level is the three bytes of U+FFFD,
which is not the stored level. -/
theorem ConfigGetter_roundtrip_invalidUTF8 :
    (newExtraConfig [0xFF]).lookup Namespace = some (.config (testConfig [0xFF])) ∧
    ConfigGetter unitCodec (newExtraConfig [0xFF]) = some (testConfig [0xEF, 0xBF, 0xBD]) ∧
    ¬ ∃ c2 : Config Unit, ConfigGetter unitCodec (newExtraConfig [0xFF]) = some c2 ∧
      c2.Level = (testConfig [0xFF]).Level := by
  refine ⟨rfl, rfl, ?_⟩
  rintro ⟨c2, h1, h2⟩
  have h3 : some (testConfig [0xEF, 0xBF, 0xBD]) = some c2 := h1
  have h4 : testConfig [0xEF, 0xBF, 0xBD] = c2 := Option.some.inj h3
  subst h4
  exact absurd h2 (by decide)

/-- C9, amended: for every `Config` value `c` stored under `Namespace` whose level,
module and (when a text formatter block is present) timestamp format are valid UTF-8,
`ConfigGetter` returns a `Config` whose level, stdout, syslog and module fields equal
those of `c`, whose json formatter block is absent exactly when that of `c` is, and whose
text formatter block equals that of `c` (absent when absent, present with the same
options when present). -/
theorem ConfigGetter_roundtrip {J : Type} (cd : StructCodec J) (e : ExtraConfig J)
    (c : Config J) (h : e.lookup Namespace = some (.config c))
    (hLevel : ValidString c.Level = true) (hModule : ValidString c.Module = true)
    (hText : ∀ t, c.TextFormatter = some t → ValidString t.TimestampFormat = true) :
    ∃ c2 : Config J, ConfigGetter cd e = some c2 ∧
      c2.Level = c.Level ∧ c2.StdOut = c.StdOut ∧ c2.Syslog = c.Syslog ∧
      c2.Module = c.Module ∧
      (c2.JSONFormatter = none ↔ c.JSONFormatter = none) ∧
      c2.TextFormatter = c.TextFormatter := by
  refine ⟨Config.reparsed cd c, ConfigGetter_config cd e c h,
    toValidUTF8_of_valid c.Level hLevel, rfl, rfl, toValidUTF8_of_valid c.Module hModule,
    ?_, ?_⟩
  · simp [Config.reparsed]
  · show c.TextFormatter.map
      (fun t => { t with TimestampFormat := toValidUTF8 t.TimestampFormat }) = c.TextFormatter
    cases ht : c.TextFormatter with
    | none => rfl
    | some t =>
      have hv := toValidUTF8_of_valid t.TimestampFormat (hText t ht)
      simp [hv]

/-- The example `ExampleConfigGetter`: the configuration of `newExtraConfig` comes back
with no json formatter and a text formatter with full timestamps. -/
theorem ConfigGetter_roundtrip_witness :
    ((newExtraConfig (utf8 "DEBUG")).lookup Namespace
        = some (.config (testConfig (utf8 "DEBUG"))) ∧
      ValidString (testConfig (utf8 "DEBUG")).Level = true ∧
      ValidString (testConfig (utf8 "DEBUG")).Module = true ∧
      ∀ t, (testConfig (utf8 "DEBUG")).TextFormatter = some t →
        ValidString t.TimestampFormat = true) ∧
    ∃ c2 : Config Unit, ConfigGetter unitCodec (newExtraConfig (utf8 "DEBUG")) = some c2 ∧
      c2.Level = utf8 "DEBUG" ∧ c2.StdOut = false ∧ c2.Syslog = false ∧
      c2.Module = utf8 "pref" ∧
      (c2.JSONFormatter = none ↔ (none : Option Unit) = none) ∧
      c2.TextFormatter = some { logrus.TextFormatter.zero with FullTimestamp := true } := by
  have ht : ∀ t, (testConfig (utf8 "DEBUG")).TextFormatter = some t →
      ValidString t.TimestampFormat = true := by
    intro t h
    have h2 : { logrus.TextFormatter.zero with FullTimestamp := true } = t :=
      Option.some.inj h
    subst h2
    rfl
  exact ⟨⟨rfl, by decide, by decide, ht⟩,
    ConfigGetter_roundtrip unitCodec (newExtraConfig (utf8 "DEBUG"))
      (testConfig (utf8 "DEBUG")) rfl (by decide) (by decide) ht⟩

/-! ## Gating and delegation -/

/-- What one operation does on a logger whose wrapped logger is at the debug level and
writes to the given sinks: nothing when the adapter's level is below the level of the
operation (never for critical), otherwise one record for each sink. -/
theorem call_eq {J : Type} (l : Logger J) (sinks : List logrus.Sink)
    (hw : ∀ (p : logrus.Record J) (out : logrus.Output J),
      l.logger.Out.Write p out = out ++ fanOut sinks p)
    (hlev : l.logger.Level = logrus.DebugLevel) (call : Call) (v : List GoString)
    (out : logrus.Output J) :
    l.call call v out =
      if call ≠ .Critical ∧ l.level < call.level then out
      else out ++ fanOut sinks (recordOf l.logger.Formatter l.module call v) := by
  cases call <;>
    simp [Logger.call, Logger.Debug, Logger.Info, Logger.Warning, Logger.Error,
      Logger.Critical, logrus.Entry.Debug, logrus.Entry.Info, logrus.Entry.Warning,
      logrus.Entry.Error, logrus.Entry.log, logrus.Logger.WithField, hw, hlev, recordOf,
      Call.level, logrus.ErrorLevel, logrus.WarnLevel, logrus.InfoLevel, logrus.DebugLevel]

/-- C1: for every recognised level string and every module label, the logger `NewLogger`
builds for a configuration with that level and label, called once with each of Debug,
Info, Warning, Error and Critical in that order, emits exactly the records of the calls
whose severity is at or above the level, in call order, to each of its sinks; the record
of the Critical call is among them; a call below the level leaves the output as it is,
and a call at or above the level adds its record. -/
theorem fiveCalls_threshold {J : Type} (cd : StructCodec J) (e : ExtraConfig J)
    (ws : List logrus.Sink) (c : Config J) (vd vi vw ve vc : List GoString)
    (hc : ConfigGetter cd e = some c) (hL : c.Level ∈ levelNames) :
    ∃ (l : Logger J) (k : Nat), NewLogger cd e ws = .ok l ∧
      thresholdSeverity c.Level = some k ∧
      fiveCalls l vd vi vw ve vc =
        (([(Call.Debug, vd), (Call.Info, vi), (Call.Warning, vw), (Call.Error, ve),
            (Call.Critical, vc)].filter (fun x => k ≤ x.1.severity)).map
          (fun x => recordOf l.logger.Formatter c.Module x.1 x.2)).flatMap
          (fanOut (sinksOf c ws)) ∧
      recordOf l.logger.Formatter c.Module Call.Critical vc ∈
        ([(Call.Debug, vd), (Call.Info, vi), (Call.Warning, vw), (Call.Error, ve),
            (Call.Critical, vc)].filter (fun x => k ≤ x.1.severity)).map
          (fun x => recordOf l.logger.Formatter c.Module x.1 x.2) ∧
      (∀ (call : Call) (v : List GoString) (out : logrus.Output J),
        call.severity < k → l.call call v out = out) ∧
      (∀ (call : Call) (v : List GoString) (out : logrus.Output J),
        k ≤ call.severity → l.call call v out
          = out ++ fanOut (sinksOf c ws) (recordOf l.logger.Formatter c.Module call v)) := by
  have hcall : ∀ lv, ∀ (call : Call) (v : List GoString) (out : logrus.Output J),
      Logger.call
        { logger := { setOutput (setFormatter logrus.New c) c ws with
                      Level := logrus.DebugLevel },
          level := lv, module := c.Module } call v out =
      if call ≠ .Critical ∧ lv < call.level then out
      else out ++ fanOut (sinksOf c ws)
        (recordOf (setOutput (setFormatter logrus.New c) c ws).Formatter c.Module call v) :=
    fun lv call v out =>
      call_eq _ (sinksOf c ws) (fun p o => setOutput_Write _ c ws p o) rfl call v out
  have hfive : ∀ l : Logger J, fiveCalls l vd vi vw ve vc =
      l.call .Critical vc (l.call .Error ve (l.call .Warning vw (l.call .Info vi
        (l.call .Debug vd [])))) := fun _ => rfl
  simp only [levelNames, List.mem_cons, List.mem_singleton, List.not_mem_nil, or_false]
    at hL
  rcases hL with h | h | h | h | h
  · refine ⟨_, 0, NewLogger_ok cd e ws c logrus.DebugLevel hc (by rw [h]; rfl),
      by rw [h]; rfl, ?_, ?_, ?_, ?_⟩
    · rw [hfive]; simp [hcall, Call.level, Call.severity, fanOut, List.flatMap, logrus.FatalLevel,
        logrus.ErrorLevel, logrus.WarnLevel, logrus.InfoLevel, logrus.DebugLevel]
    · simp [Call.severity]
    · intro call v out hk; cases call <;> simp [Call.severity] at hk
    · intro call v out _; rw [hcall]; cases call <;>
        simp [Call.level, logrus.ErrorLevel, logrus.WarnLevel, logrus.InfoLevel,
          logrus.DebugLevel]
  · refine ⟨_, 1, NewLogger_ok cd e ws c logrus.InfoLevel hc (by rw [h]; rfl),
      by rw [h]; rfl, ?_, ?_, ?_, ?_⟩
    · rw [hfive]; simp [hcall, Call.level, Call.severity, fanOut, List.flatMap, logrus.FatalLevel,
        logrus.ErrorLevel, logrus.WarnLevel, logrus.InfoLevel, logrus.DebugLevel]
    · simp [Call.severity]
    · intro call v out hk; rw [hcall]; cases call <;>
        simp [Call.severity, Call.level, logrus.FatalLevel, logrus.ErrorLevel,
          logrus.WarnLevel, logrus.InfoLevel, logrus.DebugLevel] at hk ⊢
    · intro call v out hk; rw [hcall]; cases call <;>
        simp [Call.severity, Call.level, logrus.FatalLevel, logrus.ErrorLevel,
          logrus.WarnLevel, logrus.InfoLevel, logrus.DebugLevel] at hk ⊢
  · refine ⟨_, 2, NewLogger_ok cd e ws c logrus.WarnLevel hc (by rw [h]; rfl),
      by rw [h]; rfl, ?_, ?_, ?_, ?_⟩
    · rw [hfive]; simp [hcall, Call.level, Call.severity, fanOut, List.flatMap, logrus.FatalLevel,
        logrus.ErrorLevel, logrus.WarnLevel, logrus.InfoLevel, logrus.DebugLevel]
    · simp [Call.severity]
    · intro call v out hk; rw [hcall]; cases call <;>
        simp [Call.severity, Call.level, logrus.FatalLevel, logrus.ErrorLevel,
          logrus.WarnLevel, logrus.InfoLevel, logrus.DebugLevel] at hk ⊢
    · intro call v out hk; rw [hcall]; cases call <;>
        simp [Call.severity, Call.level, logrus.FatalLevel, logrus.ErrorLevel,
          logrus.WarnLevel, logrus.InfoLevel, logrus.DebugLevel] at hk ⊢
  · refine ⟨_, 3, NewLogger_ok cd e ws c logrus.ErrorLevel hc (by rw [h]; rfl),
      by rw [h]; rfl, ?_, ?_, ?_, ?_⟩
    · rw [hfive]; simp [hcall, Call.level, Call.severity, fanOut, List.flatMap, logrus.FatalLevel,
        logrus.ErrorLevel, logrus.WarnLevel, logrus.InfoLevel, logrus.DebugLevel]
    · simp [Call.severity]
    · intro call v out hk; rw [hcall]; cases call <;>
        simp [Call.severity, Call.level, logrus.FatalLevel, logrus.ErrorLevel,
          logrus.WarnLevel, logrus.InfoLevel, logrus.DebugLevel] at hk ⊢
    · intro call v out hk; rw [hcall]; cases call <;>
        simp [Call.severity, Call.level, logrus.FatalLevel, logrus.ErrorLevel,
          logrus.WarnLevel, logrus.InfoLevel, logrus.DebugLevel] at hk ⊢
  · refine ⟨_, 4, NewLogger_ok cd e ws c logrus.FatalLevel hc (by rw [h]; rfl),
      by rw [h]; rfl, ?_, ?_, ?_, ?_⟩
    · rw [hfive]; simp [hcall, Call.level, Call.severity, fanOut, List.flatMap, logrus.FatalLevel,
        logrus.ErrorLevel, logrus.WarnLevel, logrus.InfoLevel, logrus.DebugLevel]
    · simp [Call.severity]
    · intro call v out hk; rw [hcall]; cases call <;>
        simp [Call.severity, Call.level, logrus.FatalLevel, logrus.ErrorLevel,
          logrus.WarnLevel, logrus.InfoLevel, logrus.DebugLevel] at hk ⊢
    · intro call v out hk; rw [hcall]; cases call <;>
        simp [Call.severity, Call.level, logrus.FatalLevel, logrus.ErrorLevel,
          logrus.WarnLevel, logrus.InfoLevel, logrus.DebugLevel] at hk ⊢

/-- The scenario of the tests at threshold WARNING with one caller-supplied sink: the
warning, error and critical records reach the sink, in that order. -/
theorem fiveCalls_threshold_witness :
    (ConfigGetter unitCodec (newExtraConfig (utf8 "WARNING"))
        = some (testConfig (utf8 "WARNING")) ∧
      (testConfig (utf8 "WARNING")).Level ∈ levelNames) ∧
    ∃ l : Logger Unit,
      NewLogger unitCodec (newExtraConfig (utf8 "WARNING")) [.writer 0] = .ok l ∧
      fiveCalls l [utf8 "Debug msg"] [utf8 "Info msg"] [utf8 "Warning msg"]
          [utf8 "Error msg"] [utf8 "Critical msg"]
        = [(.writer 0,
              recordOf l.logger.Formatter (utf8 "pref") .Warning [utf8 "Warning msg"]),
           (.writer 0,
              recordOf l.logger.Formatter (utf8 "pref") .Error [utf8 "Error msg"]),
           (.writer 0,
              recordOf l.logger.Formatter (utf8 "pref") .Critical [utf8 "Critical msg"])] := by
  refine ⟨⟨rfl, by decide⟩, ?_⟩
  obtain ⟨l, k, h1, h2, h3, -⟩ :=
    fiveCalls_threshold unitCodec (newExtraConfig (utf8 "WARNING")) [.writer 0]
      (testConfig (utf8 "WARNING")) [utf8 "Debug msg"] [utf8 "Info msg"]
      [utf8 "Warning msg"] [utf8 "Error msg"] [utf8 "Critical msg"] rfl (by decide)
  have hk : 2 = k := Option.some.inj h2
  subst hk
  exact ⟨l, h1, h3⟩

/-- Inversion of a successful `NewLogger`. -/
theorem NewLogger_inv {J : Type} (cd : StructCodec J) (e : ExtraConfig J)
    (ws : List logrus.Sink) (l : Logger J) (h : NewLogger cd e ws = .ok l) :
    ∃ c lv, ConfigGetter cd e = some c ∧ logLevels.lookup c.Level = some lv ∧
      l = { logger := { setOutput (setFormatter logrus.New c) c ws with
                        Level := logrus.DebugLevel },
            level := lv, module := c.Module } := by
  unfold NewLogger at h
  cases hc : ConfigGetter cd e with
  | none => simp [hc] at h
  | some c =>
    cases hl : logLevels.lookup c.Level with
    | none => simp [hc, hl] at h
    | some lv =>
      simp only [hc, hl] at h
      exact ⟨c, lv, rfl, hl, (Except.ok.inj h).symm⟩

/-- The function `setOutput` leaves the formatter as it is. -/
theorem setOutput_Formatter {J : Type} (l : logrus.Logger J) (c : Config J)
    (ws : List logrus.Sink) : (setOutput l c ws).Formatter = l.Formatter := by
  rw [setOutput_eq]
  split <;> rfl

/-- The function `setOutput` does not look at the value of the syslog flag. -/
theorem setOutput_syslog {J : Type} (l : logrus.Logger J) (c : Config J) (b : Bool)
    (ws : List logrus.Sink) : setOutput l { c with Syslog := b } ws = setOutput l c ws := by
  rw [setOutput_eq, setOutput_eq]
  rfl

/-- C5: for every logger `NewLogger` builds, whatever its threshold, and every argument
list, a Critical call is not gated: it is the one call of the wrapped logger's `Error`
on the entry with the field `module` set to the configured module label, which writes
one record at the error level to the logger's output, that is one copy to each sink. -/
theorem Critical_never_gated {J : Type} (cd : StructCodec J) (e : ExtraConfig J)
    (ws : List logrus.Sink) (l : Logger J) (v : List GoString) (out : logrus.Output J)
    (h : NewLogger cd e ws = .ok l) :
    ∃ c : Config J, ConfigGetter cd e = some c ∧
      l.Critical v out = (l.logger.WithField (utf8 "module") c.Module).Error v out ∧
      l.Critical v out = l.logger.Out.Write
        { formatter := l.logger.Formatter, level := logrus.ErrorLevel,
          data := [(utf8 "module", c.Module)], args := v } out ∧
      l.Critical v out = out ++ fanOut (sinksOf c ws)
        { formatter := l.logger.Formatter, level := logrus.ErrorLevel,
          data := [(utf8 "module", c.Module)], args := v } := by
  obtain ⟨c, lv, hc, -, rfl⟩ := NewLogger_inv cd e ws l h
  refine ⟨c, hc, rfl, ?_, ?_⟩
  · simp [Logger.Critical, logrus.Entry.Error, logrus.Entry.log, logrus.Logger.WithField,
      logrus.ErrorLevel, logrus.DebugLevel]
  · simp [Logger.Critical, logrus.Entry.Error, logrus.Entry.log, logrus.Logger.WithField,
      logrus.ErrorLevel, logrus.DebugLevel, setOutput_Write]

/-- A logger built with the threshold CRITICAL writes a Critical call at the error level
with the module label `pref`. -/
theorem Critical_never_gated_witness :
    NewLogger unitCodec (newExtraConfig (utf8 "CRITICAL")) [.writer 0]
      = .ok (testLogger logrus.FatalLevel) ∧
    ∃ c : Config Unit, ConfigGetter unitCodec (newExtraConfig (utf8 "CRITICAL")) = some c ∧
      c.Module = utf8 "pref" ∧
      (testLogger logrus.FatalLevel).Critical [utf8 "Critical msg"] []
        = [(.writer 0,
            { formatter := .text { logrus.TextFormatter.zero with FullTimestamp := true },
              level := logrus.ErrorLevel, data := [(utf8 "module", utf8 "pref")],
              args := [utf8 "Critical msg"] })] := by
  refine ⟨rfl, ?_⟩
  obtain ⟨c, hc, -, -, h3⟩ :=
    Critical_never_gated unitCodec (newExtraConfig (utf8 "CRITICAL")) [.writer 0]
      (testLogger logrus.FatalLevel) [utf8 "Critical msg"] [] rfl
  have hce : testConfig (utf8 "CRITICAL") = c := Option.some.inj hc
  subst hce
  exact ⟨_, hc, rfl, h3⟩

/-! ## Formatter and sinks -/

/-- C7: for every valid configuration, `NewLogger` builds a logger whose formatter is the
configured json formatter whenever a json block is present (whether or not a text block
is present too), otherwise the configured text formatter when a text block is present,
otherwise a text formatter with every option at its zero value. -/
theorem NewLogger_formatter {J : Type} (cd : StructCodec J) (e : ExtraConfig J)
    (ws : List logrus.Sink) (c : Config J)
    (hc : ConfigGetter cd e = some c) (hL : c.Level ∈ levelNames) :
    ∃ l : Logger J, NewLogger cd e ws = .ok l ∧
      (∀ j, c.JSONFormatter = some j → l.logger.Formatter = .json j) ∧
      (∀ t, c.JSONFormatter = none → c.TextFormatter = some t →
        l.logger.Formatter = .text t) ∧
      (c.JSONFormatter = none → c.TextFormatter = none →
        l.logger.Formatter = .text logrus.TextFormatter.zero) := by
  obtain ⟨lv, hl⟩ := logLevels_lookup_some c.Level hL
  refine ⟨_, NewLogger_ok cd e ws c lv hc hl, ?_, ?_, ?_⟩
  · intro j hj
    show (setOutput (setFormatter logrus.New c) c ws).Formatter = .json j
    rw [setOutput_Formatter]
    simp [setFormatter, hj]
  · intro t hj ht
    show (setOutput (setFormatter logrus.New c) c ws).Formatter = .text t
    rw [setOutput_Formatter]
    simp [setFormatter, hj, ht]
  · intro hj ht
    show (setOutput (setFormatter logrus.New c) c ws).Formatter = _
    rw [setOutput_Formatter]
    simp [setFormatter, hj, ht]

/-- A configuration with both a json block and a text block: the logger gets the json
formatter. -/
theorem NewLogger_formatter_witness :
    (ConfigGetter unitCodec
        [(Namespace, .config { testConfig (utf8 "INFO") with JSONFormatter := some () })]
        = some { testConfig (utf8 "INFO") with JSONFormatter := some () } ∧
      utf8 "INFO" ∈ levelNames) ∧
    ∃ l : Logger Unit,
      NewLogger unitCodec
        [(Namespace, .config { testConfig (utf8 "INFO") with JSONFormatter := some () })] []
        = .ok l ∧
      l.logger.Formatter = .json () := by
  refine ⟨⟨rfl, by decide⟩, ?_⟩
  obtain ⟨l, h1, h2, -⟩ :=
    NewLogger_formatter unitCodec
      [(Namespace, .config { testConfig (utf8 "INFO") with JSONFormatter := some () })] []
      { testConfig (utf8 "INFO") with JSONFormatter := some () } rfl (by decide)
  exact ⟨l, h1, h2 () rfl⟩

/-- C8: for every valid configuration and every list `ws` of caller-supplied sinks, the
logger `NewLogger` builds writes a record to exactly the sinks of `ws`, in order, followed
by standard output if and only if the stdout flag is set, each of them receiving the same
record; a configuration that differs only in the syslog flag yields a logger with the
same output. -/
theorem NewLogger_sinks {J : Type} (cd : StructCodec J) (e : ExtraConfig J)
    (ws : List logrus.Sink) (c : Config J)
    (hc : ConfigGetter cd e = some c) (hL : c.Level ∈ levelNames) :
    ∃ l : Logger J, NewLogger cd e ws = .ok l ∧
      (∀ (p : logrus.Record J) (out : logrus.Output J),
        l.logger.Out.Write p out
          = out ++ (ws ++ if c.StdOut then [logrus.Sink.Stdout] else []).map
              (fun s => (s, p))) ∧
      (∀ (e2 : ExtraConfig J) (b : Bool),
        ConfigGetter cd e2 = some { c with Syslog := b } →
        ∃ l2 : Logger J, NewLogger cd e2 ws = .ok l2 ∧ l2.logger.Out = l.logger.Out) := by
  obtain ⟨lv, hl⟩ := logLevels_lookup_some c.Level hL
  refine ⟨_, NewLogger_ok cd e ws c lv hc hl, ?_, ?_⟩
  · intro p out
    exact setOutput_Write _ c ws p out
  · intro e2 b h2
    refine ⟨_, NewLogger_ok cd e2 ws { c with Syslog := b } lv h2 hl, ?_⟩
    show (setOutput (setFormatter logrus.New { c with Syslog := b })
      { c with Syslog := b } ws).Out = (setOutput (setFormatter logrus.New c) c ws).Out
    rw [setOutput_syslog]
    rfl

/-- Two caller-supplied sinks and the stdout flag: a record goes to the first sink, the
second sink and standard output, in that order. -/
theorem NewLogger_sinks_witness :
    (ConfigGetter unitCodec
        [(Namespace, .config { testConfig (utf8 "DEBUG") with StdOut := true })]
        = some { testConfig (utf8 "DEBUG") with StdOut := true } ∧
      utf8 "DEBUG" ∈ levelNames) ∧
    ∃ l : Logger Unit,
      NewLogger unitCodec
        [(Namespace, .config { testConfig (utf8 "DEBUG") with StdOut := true })]
        [.writer 0, .writer 1] = .ok l ∧
      ∀ p : logrus.Record Unit, l.logger.Out.Write p []
        = [(.writer 0, p), (.writer 1, p), (.Stdout, p)] := by
  refine ⟨⟨rfl, by decide⟩, ?_⟩
  obtain ⟨l, h1, h2, -⟩ :=
    NewLogger_sinks unitCodec
      [(Namespace, .config { testConfig (utf8 "DEBUG") with StdOut := true })]
      [.writer 0, .writer 1] { testConfig (utf8 "DEBUG") with StdOut := true } rfl (by decide)
  exact ⟨l, h1, fun p => h2 p []⟩

/-- C10: for every valid configuration whose stdout flag is false, `NewLogger` called
without caller-supplied sinks returns a logger and no error; the output of that logger is
the multi-writer over the empty list, writing a record through it reaches no sink, and
every call of Debug, Info, Warning, Error or Critical leaves the output as it is. -/
theorem NewLogger_noSinks {J : Type} (cd : StructCodec J) (e : ExtraConfig J)
    (c : Config J) (hc : ConfigGetter cd e = some c) (hL : c.Level ∈ levelNames)
    (hs : c.StdOut = false) :
    ∃ l : Logger J, NewLogger cd e [] = .ok l ∧
      l.logger.Out = .MultiWriter [] ∧
      (∀ (p : logrus.Record J) (out : logrus.Output J), l.logger.Out.Write p out = out) ∧
      ∀ (v : List GoString) (out : logrus.Output J),
        l.Debug v out = out ∧ l.Info v out = out ∧ l.Warning v out = out ∧
        l.Error v out = out ∧ l.Critical v out = out := by
  obtain ⟨lv, hl⟩ := logLevels_lookup_some c.Level hL
  have hw : ∀ (p : logrus.Record J) (out : logrus.Output J),
      (setOutput (setFormatter logrus.New c) c []).Out.Write p out = out := by
    intro p out
    rw [setOutput_Write]
    simp [sinksOf, hs, fanOut]
  have hcall : ∀ (call : Call) (v : List GoString) (out : logrus.Output J),
      Logger.call
        { logger := { setOutput (setFormatter logrus.New c) c [] with
                      Level := logrus.DebugLevel },
          level := lv, module := c.Module } call v out = out := by
    intro call v out
    rw [call_eq _ [] (fun p o => by simpa [fanOut] using hw p o) rfl call v out]
    simp [fanOut]
  refine ⟨_, NewLogger_ok cd e [] c lv hc hl, ?_, hw, ?_⟩
  · show (setOutput (setFormatter logrus.New c) c []).Out = _
    rw [setOutput_eq]
    simp [sinksOf, hs]
  · intro v out
    exact ⟨hcall .Debug v out, hcall .Info v out, hcall .Warning v out,
      hcall .Error v out, hcall .Critical v out⟩

/-- The test configuration at threshold DEBUG without sinks: the logger is built and the
five calls of the scenario leave the output empty. -/
theorem NewLogger_noSinks_witness :
    (ConfigGetter unitCodec (newExtraConfig (utf8 "DEBUG"))
        = some (testConfig (utf8 "DEBUG")) ∧
      (testConfig (utf8 "DEBUG")).Level ∈ levelNames ∧
      (testConfig (utf8 "DEBUG")).StdOut = false) ∧
    ∃ l : Logger Unit, NewLogger unitCodec (newExtraConfig (utf8 "DEBUG")) [] = .ok l ∧
      l.logger.Out = .MultiWriter [] ∧
      fiveCalls l [utf8 "Debug msg"] [utf8 "Info msg"] [utf8 "Warning msg"]
          [utf8 "Error msg"] [utf8 "Critical msg"]
        = [] := by
  refine ⟨⟨rfl, by decide, rfl⟩, ?_⟩
  obtain ⟨l, h1, h2, -, h3⟩ :=
    NewLogger_noSinks unitCodec (newExtraConfig (utf8 "DEBUG")) (testConfig (utf8 "DEBUG")) rfl
      (by decide) rfl
  refine ⟨l, h1, h2, ?_⟩
  simp [fiveCalls, h3]

end KrakendLogrus
